import Mathlib

/-! Shallow embedding of the transistor-row layout templates of the
abs_templates_ec repository (analog_mos/core.py, analog_mos/mos.py, mos_char.py).

Pure functions of the source become Lean functions.  Python dictionaries whose
mandatory entries are documented in the source become structures with those
entries as fields.  The abstract per-technology methods of the MOSTech class in
core.py become fields of a MOSTech structure (one implementation per technology
variant), and the concrete classmethods of core.py become Lean functions taking
a MOSTech value.  Components whose concrete code is not part of the repository
snapshot (the per-technology MOSTech implementations and analog_core.py) are
modelled from the specification; each such definition carries a doc comment
starting with "Modelled from the spec:". -/

/-- Modelled from the spec: the opaque extension-interface descriptor (the
ext_top_info / ext_bot_info tuples produced by MOSTech.get_mos_info and consumed
by the Extension Legalizer).  The concrete technology implementation is absent
from the repository snapshot; per the spec the interface determines which
heights below its clearance still close the gap geometry (okHeights) and a
clearance at or above which every height is legal for this interface. -/
structure ExtInfo where
  okHeights : List Nat
  clearance : Nat
deriving DecidableEq

/-- Modelled from the spec: MOSTech.get_valid_extension_widths (core.py declares
only the abstract contract; the per-technology implementation is absent from the
repository snapshot).  Returns the list of legal extension heights in mos_pitch
units: the heights below the joint clearance at which both interfaces still
close, in increasing order, followed by the joint clearance, above which every
height is legal (open-ended tail). -/
def get_valid_extension_widths (_lch_unit : Int) (top_ext_info bot_ext_info : ExtInfo) :
    List Nat :=
  ((List.range (max top_ext_info.clearance bot_ext_info.clearance)).filter
      (fun h => decide (h ∈ top_ext_info.okHeights ∧ h ∈ bot_ext_info.okHeights)))
    ++ [max top_ext_info.clearance bot_ext_info.clearance]

/-- Modelled from the spec: a height is geometrically legal for the gap between
the two interfaces when both interfaces admit it explicitly, or when it is at or
above the joint clearance. -/
def height_legal (top_ext_info bot_ext_info : ExtInfo) (h : Nat) : Prop :=
  (h ∈ top_ext_info.okHeights ∧ h ∈ bot_ext_info.okHeights) ∨
    max top_ext_info.clearance bot_ext_info.clearance ≤ h

instance (t b : ExtInfo) (h : Nat) : Decidable (height_legal t b h) := by
  unfold height_legal
  exact inferInstance

/-- Modelled from the spec: the error taxonomy of the Extension Legalizer. -/
inductive ExtGenError where
  | illegalExtensionHeight
deriving DecidableEq

/-- Modelled from the spec: the extension layout-information record materialized
for a chosen legal height (the geometry descriptor itself is opaque to the core;
we record the generating arguments). -/
structure ExtLayoutInfo where
  lch_unit : Int
  w : Nat
  bot_mtype : String
  top_mtype : String
  bot_thres : String
  top_thres : String
  fg : Int
deriving DecidableEq

/-- Modelled from the spec: MOSTech.get_ext_info (core.py declares only the
abstract contract; the per-technology implementation is absent from the
repository snapshot).  Materializes the extension geometry for the chosen height
w; fails with IllegalExtensionHeight when the height is outside the legal set
computed from the two interfaces. -/
def get_ext_info (lch_unit : Int) (w : Nat) (bot_mtype top_mtype bot_thres top_thres : String)
    (fg : Int) (top_ext_info bot_ext_info : ExtInfo) : Except ExtGenError ExtLayoutInfo :=
  if height_legal top_ext_info bot_ext_info w then
    Except.ok ⟨lch_unit, w, bot_mtype, top_mtype, bot_thres, top_thres, fg⟩
  else
    Except.error ExtGenError.illegalExtensionHeight

/-- The technology constants dictionary returned by
MOSTech.get_mos_tech_constants; core.py documents that it must have the entries
sd_pitch, mos_conn_w, dum_conn_w and num_sd_per_track. -/
structure MosTechConstants where
  sd_pitch : Int
  mos_conn_w : Int
  dum_conn_w : Int
  num_sd_per_track : Int
deriving DecidableEq

/-- The transistor information dictionary returned by MOSTech.get_mos_info;
core.py documents that it must have the entries layout_info, ext_top_info,
ext_bot_info, sd_yc, g_conn_y and d_conn_y.  The layout_info geometry descriptor
is opaque to the core and kept as a list of integers. -/
structure MosInfo where
  layout_info : List Int
  ext_top_info : ExtInfo
  ext_bot_info : ExtInfo
  sd_yc : Int
  g_conn_y : Int × Int
  d_conn_y : Int × Int
deriving DecidableEq

/-- The edge information dictionary returned by MOSTech.get_edge_info; core.py
documents that it must have the entry edge_width. -/
structure EdgeInfo where
  edge_width : Int
deriving DecidableEq

/-- The routing-grid collaborator (external to this repository): resolution and
layout unit, and the track-pitch query used when quantizing edge widths. -/
structure RoutingGrid where
  resolution : Rat
  layout_unit : Rat
  track_pitch : Int → Nat

/-- The abstract static class MOSTech of core.py: one implementation per
fabrication technology.  The abstract classmethods used by the claims become
fields; the concrete classmethods of core.py are defined below as functions of
a MOSTech value. -/
structure MOSTech where
  get_mos_tech_constants : Int → MosTechConstants
  get_analog_unit_fg : Int
  get_dum_conn_pitch : Nat
  get_edge_info : RoutingGrid → Int → Int → Int → Bool → EdgeInfo
  get_mos_info : Int → Rat → String → String → Int → MosInfo

/-- MOSTech.get_dum_conn_track_info (core.py lines 582-603): reads sd_pitch,
dum_conn_w and num_sd_per_track from get_mos_tech_constants and returns the
dummy connection layer space and width. -/
def MOSTech.get_dum_conn_track_info (cls : MOSTech) (lch_unit : Int) : Int × Int :=
  let mos_constants := cls.get_mos_tech_constants lch_unit
  let sd_pitch := mos_constants.sd_pitch
  let dum_conn_w := mos_constants.dum_conn_w
  let num_sd_per_track := mos_constants.num_sd_per_track
  (sd_pitch * num_sd_per_track - dum_conn_w, dum_conn_w)

/-- MOSTech.get_mos_conn_track_info (core.py lines 605-627): reads sd_pitch,
mos_conn_w and num_sd_per_track from get_mos_tech_constants and returns the
transistor connection layer space and width. -/
def MOSTech.get_mos_conn_track_info (cls : MOSTech) (lch_unit : Int) : Int × Int :=
  let mos_constants := cls.get_mos_tech_constants lch_unit
  let sd_pitch := mos_constants.sd_pitch
  let mos_conn_w := mos_constants.mos_conn_w
  let num_sd_per_track := mos_constants.num_sd_per_track
  (sd_pitch * num_sd_per_track - mos_conn_w, mos_conn_w)

/-- MOSTech.get_left_sd_xc (core.py lines 663-686): the X coordinate of the
center of the left-most source/drain junction is the edge_width entry of the
edge information dictionary. -/
def MOSTech.get_left_sd_xc (cls : MOSTech) (grid : RoutingGrid) (lch_unit guard_ring_nf
    top_layer : Int) (is_end : Bool) : Int :=
  let edge_info := cls.get_edge_info grid lch_unit guard_ring_nf top_layer is_end
  edge_info.edge_width

/-- Modelled from the spec: the error taxonomy of the Technology Constants
Provider. -/
inductive TechLookupError where
  | unknownTechnologyParameter
deriving DecidableEq

/-- Modelled from the spec: MOSTech.get_tech_constant (core.py declares only the
abstract contract; the per-technology implementation is absent from the
repository snapshot).  Looks the name up in the technology table and fails with
UnknownTechnologyParameter when the name is absent, never silently defaulting. -/
def get_tech_constant (table : List (String × Int)) (name : String) :
    Except TechLookupError Int :=
  match table.lookup name with
  | some v => Except.ok v
  | none => Except.error TechLookupError.unknownTechnologyParameter

/-- Modelled from the spec: dictionary-based access of get_dum_conn_track_info
(core.py lines 599-603) with each required technology-table entry surfaced
through the Technology Constants Provider lookup, so that a missing entry fails
with UnknownTechnologyParameter instead of being silently defaulted. -/
def get_dum_conn_track_info_checked (table : List (String × Int)) :
    Except TechLookupError (Int × Int) := do
  let sd_pitch ← get_tech_constant table "sd_pitch"
  let dum_conn_w ← get_tech_constant table "dum_conn_w"
  let num_sd_per_track ← get_tech_constant table "num_sd_per_track"
  return (sd_pitch * num_sd_per_track - dum_conn_w, dum_conn_w)

/-- Round x up to the nearest multiple of m (identity when m = 0). -/
def round_up_to_multiple (x m : Nat) : Nat :=
  if m = 0 then x else m * ((x + m - 1) / m)

/-- Modelled from the spec: the width-quantization rule of the Edge/Outer-Edge
Composer — the edge width is the base edge width rounded up to the track pitch
of the chosen top routing layer. -/
def quantize_edge_width (base pitch : Nat) : Nat :=
  round_up_to_multiple base pitch

/-- Modelled from the spec: MOSTech.get_edge_info for a fixed center block (the
per-technology implementation is absent from the repository snapshot).  The
returned edge_width is the center block's base edge width quantized to the track
pitch of top_layer. -/
def get_edge_info_model (grid : RoutingGrid) (base_edge_width : Nat) (top_layer : Int) :
    EdgeInfo :=
  ⟨(quantize_edge_width base_edge_width (grid.track_pitch top_layer) : Int)⟩

/-- Modelled from the spec: the Track/Connection Resolver's dummy-track
legalization (analog_core.py is absent from the repository snapshot; core.py
declares only the abstract draw_dum_connection and get_dum_conn_pitch).  A
requested dummy track index is rounded up to the nearest multiple of the
technology's dummy connection pitch, never down. -/
def resolve_dum_track (cls : MOSTech) (tr_idx : Nat) : Nat :=
  round_up_to_multiple tr_idx cls.get_dum_conn_pitch

/-- Modelled from the spec: AnalogBase.make_track_id for a single transistor row
(analog_core.py is absent from the repository snapshot).  The row's gate tracks
occupy indices 0 .. ng-1, then num_track_sep tracks are reserved as space
between ports, then the drain/source tracks follow; the gate track range and the
drain/source track range never overlap. -/
def make_track_id (ng num_track_sep : Nat) (tr_type : String) (tr_idx : Nat) : Nat :=
  if tr_type = "g" then tr_idx else ng + num_track_sep + tr_idx

/-- The row quantities assembled by Transistor.draw_layout that the claims are
about: total finger count, total row width, and the track indices the gate and
drain pins are connected to. -/
structure TransistorLayout where
  fg_tot : Nat
  tot_width : Int
  g_track : Nat
  d_track : Nat
deriving DecidableEq

/-- Embedding of Transistor.draw_layout (mos_char.py): fg_tot = fg + 2 * fg_dum
(line 126) and num_gate_tr = 2 + num_track_sep (line 136) are computed by the
source; the gate pin is connected to gate track num_gate_tr - 1 (line 164) and
the drain pin to drain/source track nd_tracks / 2 (line 168).  The total row
width fg_tot * sd_pitch and the track index layout are modelled from the spec
(AnalogBase.draw_base and make_track_id are absent from the repository
snapshot). -/
def Transistor.draw_layout (sd_pitch : Int) (fg fg_dum num_track_sep nd_tracks : Nat) :
    TransistorLayout :=
  let fg_tot := fg + 2 * fg_dum
  let num_gate_tr := 2 + num_track_sep
  { fg_tot := fg_tot
    tot_width := (fg_tot : Int) * sd_pitch
    g_track := make_track_id num_gate_tr num_track_sep "g" (num_gate_tr - 1)
    d_track := make_track_id num_gate_tr num_track_sep "ds" (nd_tracks / 2) }

/-- The parameters of AnalogMOSBase (mos.py get_params_info, lines 95-111):
exactly lch, w, mos_type and threshold. -/
structure MOSBaseParams where
  lch : Rat
  w : Rat
  mos_type : String
  threshold : String
deriving DecidableEq

/-- An AnalogMOSBase template instance: constructed from the template database
context (library name, used cell names) and the parameter values. -/
structure AnalogMOSBase where
  lib_name : String
  used_names : List String
  params : MOSBaseParams
deriving DecidableEq

/-- The names of the parameters of AnalogMOSBase (mos.py lines 106-111). -/
def AnalogMOSBase.get_params_info : List String :=
  ["lch", "w", "mos_type", "threshold"]

/-- AnalogMOSBase.get_layout_basename (mos.py lines 113-119): the format string
%s_l%s_w%s_%s applied to mos_type, lch, w and threshold, with float_to_si_string
(from the external bag collaborator) abstracted as fmt. -/
def AnalogMOSBase.get_layout_basename (fmt : Rat → String) (self : AnalogMOSBase) : String :=
  self.params.mos_type ++ "_l" ++ fmt self.params.lch ++ "_w" ++ fmt self.params.w
    ++ "_" ++ self.params.threshold

/-- AnalogMOSBase.compute_unique_key (mos.py lines 121-122). -/
def AnalogMOSBase.compute_unique_key (fmt : Rat → String) (self : AnalogMOSBase) : String :=
  AnalogMOSBase.get_layout_basename fmt self

/-- The parameters of AnalogMOSExt (mos.py get_params_info, lines 168-189). -/
structure MOSExtParams where
  lch : Rat
  w : Nat
  bot_mtype : String
  top_mtype : String
  bot_thres : String
  top_thres : String
  top_ext_info : ExtInfo
  bot_ext_info : ExtInfo
  is_laygo : Bool
deriving DecidableEq

/-- An AnalogMOSExt template instance. -/
structure AnalogMOSExt where
  lib_name : String
  used_names : List String
  params : MOSExtParams
deriving DecidableEq

/-- AnalogMOSExt.get_layout_basename (mos.py lines 194-205): the format string
ext_b%s_t%s_l%s_w%s_b%s_t%s applied to the parameters, with a laygo_ prefix when
is_laygo is set. -/
def AnalogMOSExt.get_layout_basename (fmt : Rat → String) (self : AnalogMOSExt) : String :=
  let ans := "ext_b" ++ self.params.bot_mtype ++ "_t" ++ self.params.top_mtype
    ++ "_l" ++ fmt self.params.lch ++ "_w" ++ fmt (self.params.w : Rat)
    ++ "_b" ++ self.params.bot_thres ++ "_t" ++ self.params.top_thres
  if self.params.is_laygo then "laygo_" ++ ans else ans

/-- TemplateBase.to_immutable_id (external bag collaborator): converts an
already-immutable value tuple to the identical content-addressed key. -/
def to_immutable_id (x : String × ExtInfo × ExtInfo) : String × ExtInfo × ExtInfo :=
  x

/-- AnalogMOSExt.compute_unique_key (mos.py lines 207-209): the immutable id of
the tuple (layout basename, top_ext_info, bot_ext_info). -/
def AnalogMOSExt.compute_unique_key (fmt : Rat → String) (self : AnalogMOSExt) :
    String × ExtInfo × ExtInfo :=
  to_immutable_id
    (AnalogMOSExt.get_layout_basename fmt self, self.params.top_ext_info,
      self.params.bot_ext_info)

/-- Conversion of the channel length in meters to resolution units (mos.py lines
128-129, with Python's int(round(.)) embedded as round on rationals). -/
def lch_unit_of (grid : RoutingGrid) (lch : Rat) : Int :=
  round (lch / grid.layout_unit / grid.resolution)

/-- The attributes AnalogMOSBase._draw_layout_helper assigns from the transistor
information dictionary (mos.py lines 133-139). -/
structure MOSBaseState where
  layout_info : List Int
  ext_top_info : ExtInfo
  ext_bot_info : ExtInfo
  sd_yc : Int
  g_conn_y : Int × Int
  d_conn_y : Int × Int
deriving DecidableEq

/-- Embedding of AnalogMOSBase._draw_layout_helper (mos.py lines 127-142): the
finger count passed to get_mos_info is always the technology's
get_analog_unit_fg; the helper then stores the entries of the returned
transistor information dictionary. -/
def AnalogMOSBase.draw_layout_helper (tech : MOSTech) (grid : RoutingGrid)
    (self : AnalogMOSBase) : MOSBaseState :=
  let lch_unit := lch_unit_of grid self.params.lch
  let fg := tech.get_analog_unit_fg
  let mos_info := tech.get_mos_info lch_unit self.params.w self.params.mos_type
    self.params.threshold fg
  { layout_info := mos_info.layout_info
    ext_top_info := mos_info.ext_top_info
    ext_bot_info := mos_info.ext_bot_info
    sd_yc := mos_info.sd_yc
    g_conn_y := mos_info.g_conn_y
    d_conn_y := mos_info.d_conn_y }

/-- Embedding of AnalogMOSExt._draw_layout_helper (mos.py lines 214-222):
converts the channel length to resolution units and materializes the extension
through get_ext_info with the technology unit finger count. -/
def AnalogMOSExt.draw_layout_helper (tech : MOSTech) (grid : RoutingGrid)
    (self : AnalogMOSExt) : Except ExtGenError ExtLayoutInfo :=
  let lch_unit := lch_unit_of grid self.params.lch
  get_ext_info lch_unit self.params.w self.params.bot_mtype self.params.top_mtype
    self.params.bot_thres self.params.top_thres tech.get_analog_unit_fg
    self.params.top_ext_info self.params.bot_ext_info

/-- A concrete routing grid whose top-layer track pitches are not multiples of
one another (layer 1 has pitch 4, all other layers pitch 6). -/
def ceGrid : RoutingGrid :=
  ⟨1, 1, fun l => if l = 1 then 4 else 6⟩

/-- A concrete routing grid whose coarser track pitch is a multiple of the finer
one (layer 1 has pitch 2, all other layers pitch 6). -/
def ceGrid2 : RoutingGrid :=
  ⟨1, 1, fun l => if l = 1 then 2 else 6⟩

/-- A concrete technology implementation used to evaluate the generic theorems:
sd_pitch 192, mos_conn_w 72, dum_conn_w 48, one source/drain junction per track,
analog unit of 2 fingers, dummy connections on every other track. -/
def demoTech : MOSTech :=
  ⟨fun _ => ⟨192, 72, 48, 1⟩, 2, 2, fun _ _ _ _ _ => ⟨200⟩,
    fun _ _ _ _ _ => ⟨[], ⟨[0], 0⟩, ⟨[0], 0⟩, 0, (0, 1), (2, 3)⟩⟩

theorem get_valid_extension_widths_sorted (lch : Int) (t b : ExtInfo) :
    List.Pairwise (· < ·) (get_valid_extension_widths lch t b) := by
  unfold get_valid_extension_widths
  rw [List.pairwise_append]
  refine ⟨(List.pairwise_lt_range _).filter _, List.pairwise_singleton _ _, ?_⟩
  intro a ha c hc
  have ha2 := List.mem_range.mp (List.mem_filter.mp ha).1
  have hc2 : c = max t.clearance b.clearance := by simpa using hc
  omega

theorem get_valid_extension_widths_getLastD (lch : Int) (t b : ExtInfo) :
    (get_valid_extension_widths lch t b).getLastD 0 =
      max t.clearance b.clearance := by
  unfold get_valid_extension_widths
  exact List.getLastD_concat _ _ _

theorem height_legal_iff_mem (lch : Int) (t b : ExtInfo) (h : Nat) :
    height_legal t b h ↔
      (h ∈ get_valid_extension_widths lch t b ∨
        (get_valid_extension_widths lch t b).getLastD 0 ≤ h) := by
  rw [get_valid_extension_widths_getLastD lch t b]
  unfold height_legal get_valid_extension_widths
  constructor
  · rintro (⟨ht, hb⟩ | hc)
    · by_cases hlt : h < max t.clearance b.clearance
      · exact Or.inl (List.mem_append.mpr (Or.inl (List.mem_filter.mpr
          ⟨List.mem_range.mpr hlt, by simp only [decide_eq_true_eq]; exact ⟨ht, hb⟩⟩)))
      · exact Or.inr (by omega)
    · exact Or.inr hc
  · rintro (hmem | hge)
    · rcases List.mem_append.mp hmem with hf | hc
      · exact Or.inl (of_decide_eq_true (List.mem_filter.mp hf).2)
      · have hc2 : h = max t.clearance b.clearance := by simpa using hc
        exact Or.inr (by omega)
    · exact Or.inr hge

theorem le_round_up_to_multiple (x m : Nat) (hm : 0 < m) :
    x ≤ round_up_to_multiple x m := by
  unfold round_up_to_multiple
  rw [if_neg (Nat.pos_iff_ne_zero.mp hm)]
  have hdm := Nat.div_add_mod (x + m - 1) m
  have hr : (x + m - 1) % m < m := Nat.mod_lt _ hm
  generalize hR : (x + m - 1) % m = r at hdm hr
  generalize hQ : (x + m - 1) / m = q at hdm ⊢
  generalize hT : m * q = t at hdm ⊢
  omega

theorem round_up_to_multiple_lt (x m : Nat) (hm : 0 < m) :
    round_up_to_multiple x m < x + m := by
  unfold round_up_to_multiple
  rw [if_neg (Nat.pos_iff_ne_zero.mp hm)]
  have hdm := Nat.div_add_mod (x + m - 1) m
  have hr : (x + m - 1) % m < m := Nat.mod_lt _ hm
  generalize hR : (x + m - 1) % m = r at hdm hr
  generalize hQ : (x + m - 1) / m = q at hdm ⊢
  generalize hT : m * q = t at hdm ⊢
  omega

theorem round_up_to_multiple_dvd (x m : Nat) (hm : 0 < m) :
    m ∣ round_up_to_multiple x m := by
  unfold round_up_to_multiple
  rw [if_neg (Nat.pos_iff_ne_zero.mp hm)]
  exact dvd_mul_right m _

theorem round_up_to_multiple_min (x m y : Nat) (hm : 0 < m) (hd : m ∣ y)
    (hxy : x ≤ y) : round_up_to_multiple x m ≤ y := by
  obtain ⟨k, rfl⟩ := hd
  unfold round_up_to_multiple
  rw [if_neg (Nat.pos_iff_ne_zero.mp hm)]
  have h1 : (x + m - 1) / m ≤ k := by
    rw [Nat.div_le_iff_le_mul_add_pred hm]
    generalize hT : m * k = t at hxy ⊢
    omega
  exact Nat.mul_le_mul (Nat.le_refl m) h1

/-- Claim C1: for every channel length and pair of extension interfaces, the
legal-extension-height computation get_valid_extension_widths returns a strictly
increasing non-empty sequence whose first element is at least 0, every height at
or above the sequence's last element is legal, and every height below the last
element that is not an element of the sequence is illegal. -/
theorem get_valid_extension_widths_spec (lch : Int) (t b : ExtInfo) :
    List.Pairwise (· < ·) (get_valid_extension_widths lch t b) ∧
    get_valid_extension_widths lch t b ≠ [] ∧
    0 ≤ (get_valid_extension_widths lch t b).headD 0 ∧
    (∀ h : Nat,
      (get_valid_extension_widths lch t b).getLastD 0 ≤ h → height_legal t b h) ∧
    (∀ h : Nat, h < (get_valid_extension_widths lch t b).getLastD 0 →
      h ∉ get_valid_extension_widths lch t b → ¬ height_legal t b h) := by
  refine ⟨get_valid_extension_widths_sorted lch t b, ?_, Nat.zero_le _, ?_, ?_⟩
  · unfold get_valid_extension_widths
    simp
  · intro h hge
    exact (height_legal_iff_mem lch t b h).mpr (Or.inr hge)
  · intro h hlt hnm hleg
    rcases (height_legal_iff_mem lch t b h).mp hleg with hm | hge
    · exact hnm hm
    · omega

/-- Witness for C1, at the spec's example interfaces whose legal-height set is
[0, 2, 5]: height 7 (open tail) is legal and height 3 (below 5, not in the
sequence) is illegal. -/
theorem get_valid_extension_widths_spec_witness :
    height_legal ⟨[0, 2], 5⟩ ⟨[0, 2], 5⟩ 7 ∧ ¬ height_legal ⟨[0, 2], 5⟩ ⟨[0, 2], 5⟩ 3 := by
  have h := get_valid_extension_widths_spec 16 ⟨[0, 2], 5⟩ ⟨[0, 2], 5⟩
  exact ⟨h.2.2.2.1 7 (by decide), h.2.2.2.2 3 (by decide) (by decide)⟩

/-- Claim C2: materializing an extension whose chosen height is below the last
element of get_valid_extension_widths and not a member of it fails with
IllegalExtensionHeight; a height in the explicit sequence or at/above its last
element succeeds. -/
theorem get_ext_info_illegal_spec (lch : Int) (w : Nat)
    (bot_mtype top_mtype bot_thres top_thres : String) (fg : Int) (t b : ExtInfo) :
    (w ∉ get_valid_extension_widths lch t b →
      w < (get_valid_extension_widths lch t b).getLastD 0 →
      get_ext_info lch w bot_mtype top_mtype bot_thres top_thres fg t b =
        Except.error ExtGenError.illegalExtensionHeight) ∧
    (w ∈ get_valid_extension_widths lch t b ∨
        (get_valid_extension_widths lch t b).getLastD 0 ≤ w →
      get_ext_info lch w bot_mtype top_mtype bot_thres top_thres fg t b =
        Except.ok ⟨lch, w, bot_mtype, top_mtype, bot_thres, top_thres, fg⟩) := by
  constructor
  · intro hnm hlt
    have hni : ¬ height_legal t b w := by
      intro hleg
      rcases (height_legal_iff_mem lch t b w).mp hleg with hm | hge
      · exact hnm hm
      · omega
    unfold get_ext_info
    rw [if_neg hni]
  · intro hmem
    have hl : height_legal t b w := (height_legal_iff_mem lch t b w).mpr hmem
    unfold get_ext_info
    rw [if_pos hl]

/-- Witness for C2, the spec's end-to-end scenario on interfaces with legal set
[0, 2, 5]: height 3 fails with IllegalExtensionHeight, heights 0 and 7
succeed. -/
theorem get_ext_info_illegal_spec_witness :
    get_ext_info 16 3 "nch" "nch" "svt" "svt" 2 ⟨[0, 2], 5⟩ ⟨[0, 2], 5⟩ =
      Except.error ExtGenError.illegalExtensionHeight ∧
    get_ext_info 16 0 "nch" "nch" "svt" "svt" 2 ⟨[0, 2], 5⟩ ⟨[0, 2], 5⟩ =
      Except.ok ⟨16, 0, "nch", "nch", "svt", "svt", 2⟩ ∧
    get_ext_info 16 7 "nch" "nch" "svt" "svt" 2 ⟨[0, 2], 5⟩ ⟨[0, 2], 5⟩ =
      Except.ok ⟨16, 7, "nch", "nch", "svt", "svt", 2⟩ := by
  refine ⟨(get_ext_info_illegal_spec 16 3 "nch" "nch" "svt" "svt" 2
      ⟨[0, 2], 5⟩ ⟨[0, 2], 5⟩).1 (by decide) (by decide),
    (get_ext_info_illegal_spec 16 0 "nch" "nch" "svt" "svt" 2
      ⟨[0, 2], 5⟩ ⟨[0, 2], 5⟩).2 (Or.inl (by decide)),
    (get_ext_info_illegal_spec 16 7 "nch" "nch" "svt" "svt" 2
      ⟨[0, 2], 5⟩ ⟨[0, 2], 5⟩).2 (Or.inr (by decide))⟩

/-- Claim C3: for every technology and channel length, get_dum_conn_track_info
returns (sd_pitch * num_sd_per_track - dum_conn_w, dum_conn_w) and
get_mos_conn_track_info returns (sd_pitch * num_sd_per_track - mos_conn_w,
mos_conn_w), with the constants read from get_mos_tech_constants. -/
theorem conn_track_info_spec (cls : MOSTech) (lch_unit : Int) :
    cls.get_dum_conn_track_info lch_unit =
      ((cls.get_mos_tech_constants lch_unit).sd_pitch *
          (cls.get_mos_tech_constants lch_unit).num_sd_per_track -
            (cls.get_mos_tech_constants lch_unit).dum_conn_w,
        (cls.get_mos_tech_constants lch_unit).dum_conn_w) ∧
    cls.get_mos_conn_track_info lch_unit =
      ((cls.get_mos_tech_constants lch_unit).sd_pitch *
          (cls.get_mos_tech_constants lch_unit).num_sd_per_track -
            (cls.get_mos_tech_constants lch_unit).mos_conn_w,
        (cls.get_mos_tech_constants lch_unit).mos_conn_w) :=
  ⟨rfl, rfl⟩

/-- Claim C4: for every technology, grid, channel length, guard ring width, top
layer and end flag, get_left_sd_xc equals the edge_width entry of the edge
information dictionary returned by get_edge_info for the same arguments. -/
theorem get_left_sd_xc_spec (cls : MOSTech) (grid : RoutingGrid)
    (lch_unit guard_ring_nf top_layer : Int) (is_end : Bool) :
    cls.get_left_sd_xc grid lch_unit guard_ring_nf top_layer is_end =
      (cls.get_edge_info grid lch_unit guard_ring_nf top_layer is_end).edge_width :=
  rfl

/-- Claim C5: for every constant name absent from the technology table, the
technology-constant lookup fails with UnknownTechnologyParameter and never
returns a value; a table with a missing required entry likewise surfaces the
error through the derived track-info computation. -/
theorem get_tech_constant_spec (table : List (String × Int)) (name : String)
    (habs : table.lookup name = none) :
    get_tech_constant table name =
      Except.error TechLookupError.unknownTechnologyParameter ∧
    (∀ v : Int, get_tech_constant table name ≠ Except.ok v) ∧
    (table.lookup "sd_pitch" = none →
      get_dum_conn_track_info_checked table =
        Except.error TechLookupError.unknownTechnologyParameter) := by
  have h1 : get_tech_constant table name =
      Except.error TechLookupError.unknownTechnologyParameter := by
    unfold get_tech_constant
    rw [habs]
  refine ⟨h1, ?_, ?_⟩
  · intro v hv
    rw [h1] at hv
    exact Except.noConfusion hv
  · intro h2
    have h3 : get_tech_constant table "sd_pitch" =
        Except.error TechLookupError.unknownTechnologyParameter := by
      unfold get_tech_constant
      rw [h2]
    unfold get_dum_conn_track_info_checked
    rw [h3]
    rfl

/-- Witness for C5 on the empty technology table and the name sd_pitch. -/
theorem get_tech_constant_spec_witness :
    get_tech_constant [] "sd_pitch" =
      Except.error TechLookupError.unknownTechnologyParameter ∧
    (∀ v : Int, get_tech_constant [] "sd_pitch" ≠ Except.ok v) ∧
    (List.lookup "sd_pitch" ([] : List (String × Int)) = none →
      get_dum_conn_track_info_checked [] =
        Except.error TechLookupError.unknownTechnologyParameter) :=
  get_tech_constant_spec [] "sd_pitch" rfl

/-- Claim C6: compute_unique_key is deterministic in the template parameters:
two AnalogMOSBase instances with equal parameter values, and two AnalogMOSExt
instances with equal parameter values, yield the same unique key regardless of
the other construction context. -/
theorem compute_unique_key_deterministic (fmt : Rat → String)
    (b1 b2 : AnalogMOSBase) (e1 e2 : AnalogMOSExt)
    (hb : b1.params = b2.params) (he : e1.params = e2.params) :
    AnalogMOSBase.compute_unique_key fmt b1 = AnalogMOSBase.compute_unique_key fmt b2 ∧
    AnalogMOSExt.compute_unique_key fmt e1 = AnalogMOSExt.compute_unique_key fmt e2 := by
  constructor
  · unfold AnalogMOSBase.compute_unique_key AnalogMOSBase.get_layout_basename
    rw [hb]
  · unfold AnalogMOSExt.compute_unique_key AnalogMOSExt.get_layout_basename to_immutable_id
    rw [he]

/-- Witness for C6: instances differing only in library name and used cell
names, with identical parameter values, produce identical unique keys. -/
theorem compute_unique_key_deterministic_witness :
    AnalogMOSBase.compute_unique_key (fun _ => "16n")
        ⟨"libA", [], ⟨16, 4, "nch", "svt"⟩⟩ =
      AnalogMOSBase.compute_unique_key (fun _ => "16n")
        ⟨"libB", ["cell_0"], ⟨16, 4, "nch", "svt"⟩⟩ ∧
    AnalogMOSExt.compute_unique_key (fun _ => "16n")
        ⟨"libA", [], ⟨16, 2, "nch", "pch", "svt", "svt", ⟨[0, 2], 5⟩, ⟨[0], 3⟩, false⟩⟩ =
      AnalogMOSExt.compute_unique_key (fun _ => "16n")
        ⟨"libB", ["cell_0"], ⟨16, 2, "nch", "pch", "svt", "svt", ⟨[0, 2], 5⟩, ⟨[0], 3⟩, false⟩⟩ :=
  compute_unique_key_deterministic (fun _ => "16n") _ _ _ _ rfl rfl

/-- Claim C7: the characterization Transistor row assembles fg + 2 * fg_dum
fingers in total, its total width is (fg + 2 * fg_dum) * sd_pitch (in particular
(4 + 2 * 1) * sd_pitch for fg = 4, fg_dum = 1), and the gate and drain pins are
connected to two distinct, non-overlapping track indices. -/
theorem transistor_row_spec (sd_pitch : Int) (fg fg_dum num_track_sep nd_tracks : Nat) :
    (Transistor.draw_layout sd_pitch fg fg_dum num_track_sep nd_tracks).fg_tot =
      fg + 2 * fg_dum ∧
    (Transistor.draw_layout sd_pitch fg fg_dum num_track_sep nd_tracks).tot_width =
      ((fg + 2 * fg_dum : Nat) : Int) * sd_pitch ∧
    (Transistor.draw_layout sd_pitch 4 1 num_track_sep nd_tracks).tot_width =
      (4 + 2 * 1) * sd_pitch ∧
    (Transistor.draw_layout sd_pitch fg fg_dum num_track_sep nd_tracks).g_track <
      (Transistor.draw_layout sd_pitch fg fg_dum num_track_sep nd_tracks).d_track := by
  refine ⟨rfl, rfl, ?_, ?_⟩
  · show ((4 + 2 * 1 : Nat) : Int) * sd_pitch = (4 + 2 * 1) * sd_pitch
    norm_num
  · show make_track_id (2 + num_track_sep) num_track_sep "g" (2 + num_track_sep - 1) <
      make_track_id (2 + num_track_sep) num_track_sep "ds" (nd_tracks / 2)
    unfold make_track_id
    rw [if_pos rfl, if_neg (by decide)]
    omega

/-- Counterexample to C8 as stated: on ceGrid the track pitch of top layer 2
(6 units) is strictly larger than that of top layer 1 (4 units), yet for base
edge width 5 the quantized edge width on layer 2 (6) is strictly smaller than
on layer 1 (8), so edge width is not monotone in the track pitch alone. -/
theorem edge_width_monotone_counterexample :
    ceGrid.track_pitch 1 < ceGrid.track_pitch 2 ∧
    (get_edge_info_model ceGrid 5 2).edge_width <
      (get_edge_info_model ceGrid 5 1).edge_width := by
  decide

/-- Claim C8 (amended): for a fixed center block, the edge_width returned by the
edge-information computation is monotonically non-decreasing in the track pitch
of the chosen top routing layer whenever the coarser pitch is a multiple of the
finer pitch (as in a routing grid whose layer pitches refine one another). -/
theorem edge_width_monotone_of_dvd (grid : RoutingGrid) (base : Nat) (l1 l2 : Int)
    (h1 : 0 < grid.track_pitch l1) (h2 : 0 < grid.track_pitch l2)
    (hdvd : grid.track_pitch l1 ∣ grid.track_pitch l2) :
    (get_edge_info_model grid base l1).edge_width ≤
      (get_edge_info_model grid base l2).edge_width := by
  show ((quantize_edge_width base (grid.track_pitch l1) : Nat) : Int) ≤
    ((quantize_edge_width base (grid.track_pitch l2) : Nat) : Int)
  unfold quantize_edge_width
  have hle : round_up_to_multiple base (grid.track_pitch l1) ≤
      round_up_to_multiple base (grid.track_pitch l2) :=
    round_up_to_multiple_min base (grid.track_pitch l1)
      (round_up_to_multiple base (grid.track_pitch l2)) h1
      (hdvd.trans (round_up_to_multiple_dvd base (grid.track_pitch l2) h2))
      (le_round_up_to_multiple base (grid.track_pitch l2) h2)
  exact_mod_cast hle

/-- Witness for the amended C8 on ceGrid2, whose layer-1 pitch 2 divides the
layer-2 pitch 6. -/
theorem edge_width_monotone_of_dvd_witness :
    0 < ceGrid2.track_pitch 1 ∧ 0 < ceGrid2.track_pitch 2 ∧
    ceGrid2.track_pitch 1 ∣ ceGrid2.track_pitch 2 ∧
    (get_edge_info_model ceGrid2 5 1).edge_width ≤
      (get_edge_info_model ceGrid2 5 2).edge_width :=
  ⟨by decide, by decide, by decide,
    edge_width_monotone_of_dvd ceGrid2 5 1 2 (by decide) (by decide) (by decide)⟩

/-- Claim C9: every dummy-connection track index resolved by the track resolver
is a multiple of the technology's get_dum_conn_pitch, and a requested index is
rounded up to the nearest legal multiple, never down. -/
theorem resolve_dum_track_spec (cls : MOSTech) (tr_idx : Nat)
    (hp : 0 < cls.get_dum_conn_pitch) :
    cls.get_dum_conn_pitch ∣ resolve_dum_track cls tr_idx ∧
    tr_idx ≤ resolve_dum_track cls tr_idx ∧
    resolve_dum_track cls tr_idx < tr_idx + cls.get_dum_conn_pitch := by
  unfold resolve_dum_track
  exact ⟨round_up_to_multiple_dvd _ _ hp, le_round_up_to_multiple _ _ hp,
    round_up_to_multiple_lt _ _ hp⟩

/-- Witness for C9 on demoTech (dummy connection pitch 2) at requested index 3,
which resolves to 4. -/
theorem resolve_dum_track_spec_witness :
    0 < demoTech.get_dum_conn_pitch ∧
    (demoTech.get_dum_conn_pitch ∣ resolve_dum_track demoTech 3 ∧
      3 ≤ resolve_dum_track demoTech 3 ∧
      resolve_dum_track demoTech 3 < 3 + demoTech.get_dum_conn_pitch) :=
  ⟨by decide, resolve_dum_track_spec demoTech 3 (by decide)⟩

/-- Claim C10: AnalogMOSBase exposes exactly the parameters lch, w, mos_type and
threshold (no finger count), and its layout helper always builds the transistor
information with finger count equal to the technology's get_analog_unit_fg, so
the resulting block is independent of any caller-chosen finger count. -/
theorem analog_mos_base_unit_fg_spec (tech : MOSTech) (grid : RoutingGrid)
    (self : AnalogMOSBase) :
    AnalogMOSBase.get_params_info = ["lch", "w", "mos_type", "threshold"] ∧
    "fg" ∉ AnalogMOSBase.get_params_info ∧
    AnalogMOSBase.draw_layout_helper tech grid self =
      ⟨(tech.get_mos_info (lch_unit_of grid self.params.lch) self.params.w
          self.params.mos_type self.params.threshold tech.get_analog_unit_fg).layout_info,
        (tech.get_mos_info (lch_unit_of grid self.params.lch) self.params.w
          self.params.mos_type self.params.threshold tech.get_analog_unit_fg).ext_top_info,
        (tech.get_mos_info (lch_unit_of grid self.params.lch) self.params.w
          self.params.mos_type self.params.threshold tech.get_analog_unit_fg).ext_bot_info,
        (tech.get_mos_info (lch_unit_of grid self.params.lch) self.params.w
          self.params.mos_type self.params.threshold tech.get_analog_unit_fg).sd_yc,
        (tech.get_mos_info (lch_unit_of grid self.params.lch) self.params.w
          self.params.mos_type self.params.threshold tech.get_analog_unit_fg).g_conn_y,
        (tech.get_mos_info (lch_unit_of grid self.params.lch) self.params.w
          self.params.mos_type self.params.threshold tech.get_analog_unit_fg).d_conn_y⟩ :=
  ⟨rfl, by decide, rfl⟩
